import Mathlib

/-!
# Fossil Journey Tracker — verification of the reconstruction-and-cache subsystem

Shallow embedding of the cache, anchor-resolution, trajectory and geometry
code of `simulator.py`, `download_gplates_cache.py`, `download_gplates_full.py`
and `test_sync.py`, together with theorems settling the specification claims.

Modelling conventions:
* Strings stand for raw HTTP payloads and URLs (all ASCII in this code base).
* The in-memory tier (`GPLATES_MEMORY_CACHE`) and the on-disk tier
  (`gplates_cache/` files) are modelled as partial maps `String → Option String`.
* The network (`urllib.request.urlopen`) is an oracle `String → Option String`;
  `none` stands for any raised exception, `some data` for a decoded body.
* Geometry runs over `ℚ`: the Python/JS floats are modelled by exact rationals.
-/

namespace FossilJourney

/-- Partial-map update: Python `dict[k] = v` / writing one cache file. -/
def updateFn (f : String → Option String) (k v : String) : String → Option String :=
  fun x => if x = k then some v else f x

/-! ## Proxy cache (`simulator.py`, `GPlatesProxyHandler.do_GET`) -/

/-- The proxy's mutable cache state: the in-memory dict `GPLATES_MEMORY_CACHE`
keyed by the full GPlates URL, and the disk cache keyed by the URL as well
(`load_from_disk_cache`/`save_to_disk_cache` key files by the URL's hash,
a bijective renaming we keep abstract here; `get_cache_path` itself is
modelled separately for the key-stability claims). -/
structure ProxyState where
  mem : String → Option String
  disk : String → Option String

/-- Outcome of one `do_GET`: a 200 JSON response with a body, or
`send_error` with an HTTP code. -/
inductive ProxyResponse where
  | ok (data : String)
  | err (code : Nat)
deriving DecidableEq

/-- `GPlatesProxyHandler.do_GET` (simulator.py lines 84–119) on one URL.
Returns the response, the new cache state, and the number of network
operations (`urllib.request.urlopen` calls) performed.

Order of the source: (1) memory-cache hit; (2) disk hit — Python's
`if disk_data:` is a truthiness test, so a present-but-empty disk entry is
treated as a miss; (3) fetch from the origin, save to disk and memory on
success, `send_error(404, ...)` on any exception. -/
def doGET (origin : String → Option String) (st : ProxyState) (url : String) :
    ProxyResponse × ProxyState × Nat :=
  match st.mem url with
  | some d => (.ok d, st, 0)
  | none =>
    match st.disk url with
    | some d =>
      if d ≠ "" then (.ok d, ⟨updateFn st.mem url d, st.disk⟩, 0)
      else
        match origin url with
        | some data => (.ok data, ⟨updateFn st.mem url data, updateFn st.disk url data⟩, 1)
        | none => (.err 404, st, 1)
    | none =>
      match origin url with
      | some data => (.ok data, ⟨updateFn st.mem url data, updateFn st.disk url data⟩, 1)
      | none => (.err 404, st, 1)

/-! ## Cache key derivation (`get_cache_path` in simulator.py,
download_gplates_cache.py and download_gplates_full.py)

The source computes `hashlib.md5(url.encode()).hexdigest()` and appends
`.json`.  MD5 is implemented here in full (RFC 1321) over byte lists, with
32-bit words as `Nat` values reduced modulo `2^32`. -/

/-- Reduce a word modulo 2^32 (every md5 word is 32 bits). -/
def u32 (x : Nat) : Nat := x % 4294967296

/-- Left-rotate a 32-bit word by `c` bits. -/
def rotl32 (x c : Nat) : Nat := u32 ((x <<< c) ||| (x >>> (32 - c)))

/-- Bitwise complement within 32 bits. -/
def not32 (x : Nat) : Nat := x ^^^ 4294967295

/-- Per-round left-rotation amounts of MD5 (RFC 1321). -/
def md5s : List Nat :=
  [7, 12, 17, 22, 7, 12, 17, 22, 7, 12, 17, 22, 7, 12, 17, 22,
   5, 9, 14, 20, 5, 9, 14, 20, 5, 9, 14, 20, 5, 9, 14, 20,
   4, 11, 16, 23, 4, 11, 16, 23, 4, 11, 16, 23, 4, 11, 16, 23,
   6, 10, 15, 21, 6, 10, 15, 21, 6, 10, 15, 21, 6, 10, 15, 21]

/-- Sine-derived additive constants of MD5 (RFC 1321). -/
def md5K : List Nat :=
  [0xd76aa478, 0xe8c7b756, 0x242070db, 0xc1bdceee,
   0xf57c0faf, 0x4787c62a, 0xa8304613, 0xfd469501,
   0x698098d8, 0x8b44f7af, 0xffff5bb1, 0x895cd7be,
   0x6b901122, 0xfd987193, 0xa679438e, 0x49b40821,
   0xf61e2562, 0xc040b340, 0x265e5a51, 0xe9b6c7aa,
   0xd62f105d, 0x02441453, 0xd8a1e681, 0xe7d3fbc8,
   0x21e1cde6, 0xc33707d6, 0xf4d50d87, 0x455a14ed,
   0xa9e3e905, 0xfcefa3f8, 0x676f02d9, 0x8d2a4c8a,
   0xfffa3942, 0x8771f681, 0x6d9d6122, 0xfde5380c,
   0xa4beea44, 0x4bdecfa9, 0xf6bb4b60, 0xbebfbc70,
   0x289b7ec6, 0xeaa127fa, 0xd4ef3085, 0x04881d05,
   0xd9d4d039, 0xe6db99e5, 0x1fa27cf8, 0xc4ac5665,
   0xf4292244, 0x432aff97, 0xab9423a7, 0xfc93a039,
   0x655b59c3, 0x8f0ccc92, 0xffeff47d, 0x85845dd1,
   0x6fa87e4f, 0xfe2ce6e0, 0xa3014314, 0x4e0811a1,
   0xf7537e82, 0xbd3af235, 0x2ad7d2bb, 0xeb86d391]

/-- Little-endian byte decomposition of `x` into `n` bytes. -/
def leBytes (n : Nat) (x : Nat) : List Nat :=
  (List.range n).map (fun i => (x >>> (8 * i)) % 256)

/-- MD5 padding: append 0x80, zero-fill to 56 mod 64, append the 64-bit
little-endian bit length. -/
def md5pad (msg : List Nat) : List Nat :=
  msg ++ [128] ++ List.replicate ((120 - (msg.length + 1) % 64) % 64) 0 ++
    leBytes 8 ((8 * msg.length) % 18446744073709551616)

/-- Split a byte list into 64-byte chunks; the `Nat` counter only bounds the
number of iterations (structural recursion), it never cuts the list short
when it starts at `l.length`. -/
def chunksAux : Nat → List Nat → List (List Nat)
  | _, [] => []
  | 0, _ => []
  | n + 1, l => l.take 64 :: chunksAux n (l.drop 64)

/-- Split a byte list into 64-byte chunks. -/
def chunks64 (l : List Nat) : List (List Nat) := chunksAux l.length l

/-- Little-endian 32-bit word `j` of a 64-byte chunk. -/
def leWord (chunk : List Nat) (j : Nat) : Nat :=
  chunk.getD (4 * j) 0 + 256 * chunk.getD (4 * j + 1) 0 +
    65536 * chunk.getD (4 * j + 2) 0 + 16777216 * chunk.getD (4 * j + 3) 0

/-- One of the 64 MD5 rounds on state (a, b, c, d); `M` fetches message words. -/
def md5round (M : Nat → Nat) (st : Nat × Nat × Nat × Nat) (i : Nat) :
    Nat × Nat × Nat × Nat :=
  let a := st.1
  let b := st.2.1
  let c := st.2.2.1
  let d := st.2.2.2
  let fg : Nat × Nat :=
    if i < 16 then ((b &&& c) ||| (not32 b &&& d), i)
    else if i < 32 then ((d &&& b) ||| (not32 d &&& c), (5 * i + 1) % 16)
    else if i < 48 then (b ^^^ c ^^^ d, (3 * i + 5) % 16)
    else (c ^^^ (b ||| not32 d), (7 * i) % 16)
  let f := u32 (fg.1 + a + md5K.getD i 0 + M fg.2)
  (d, u32 (b + rotl32 f (md5s.getD i 0)), b, c)

/-- Process one 64-byte chunk of the padded message. -/
def md5chunk (st : Nat × Nat × Nat × Nat) (chunk : List Nat) :
    Nat × Nat × Nat × Nat :=
  let M := fun j => leWord chunk (j % 16)
  let r := (List.range 64).foldl (md5round M) st
  (u32 (st.1 + r.1), u32 (st.2.1 + r.2.1), u32 (st.2.2.1 + r.2.2.1),
    u32 (st.2.2.2 + r.2.2.2))

/-- MD5 of a byte list, as the four little-endian state words. -/
def md5 (msg : List Nat) : Nat × Nat × Nat × Nat :=
  (chunks64 (md5pad msg)).foldl md5chunk
    (0x67452301, 0xefcdab89, 0x98badcfe, 0x10325476)

/-- Lower-case hex digit. -/
def hexDigit (n : Nat) : Char :=
  Char.ofNat (if n < 10 then 48 + n else 87 + n)

/-- Two hex digits of one byte. -/
def byteHex (b : Nat) : List Char := [hexDigit (b / 16), hexDigit (b % 16)]

/-- The `hexdigest()` string of the MD5 of a byte list. -/
def md5hex (msg : List Nat) : String :=
  let r := md5 msg
  String.mk ((leBytes 4 r.1 ++ leBytes 4 r.2.1 ++ leBytes 4 r.2.2.1 ++
    leBytes 4 r.2.2.2).flatMap byteHex)

/-- Bytes of `url.encode()`: the URLs of this code base are pure ASCII, where
UTF-8 encoding is the identity on code points. -/
def strBytes (s : String) : List Nat := s.data.map Char.toNat

/-- `get_cache_path(url)` of simulator.py lines 38–41 (identically defined in
both bulk downloaders): the cache file name is the MD5 hex digest of the raw
URL string plus `.json` (the constant `CACHE_DIR` directory part is omitted). -/
def get_cache_path (url : String) : String := md5hex (strBytes url) ++ ".json"

/-! ## JSON well-formedness (Python `json.loads`)

Modelled from the spec: `download_and_cache` calls the Python standard
library's `json.loads(data)` to validate a payload before caching it; the
library itself is not part of this repository.  The checker below follows
strict JSON (RFC 8259) plus Python's default `NaN` / `Infinity` /
`-Infinity` constants; it returns the unconsumed remainder on success. -/

/-- Whitespace characters skipped by the JSON scanner. -/
def isWsChar (c : Char) : Bool := c = ' ' || c = '\t' || c = '\n' || c = '\r'

/-- Drop leading JSON whitespace. -/
def skipWs : List Char → List Char
  | [] => []
  | c :: rest => if isWsChar c then skipWs rest else c :: rest

/-- ASCII decimal digit test. -/
def isDigitChar (c : Char) : Bool := '0' ≤ c && c ≤ '9'

/-- ASCII hex digit test. -/
def isHexChar (c : Char) : Bool :=
  isDigitChar c || ('a' ≤ c && c ≤ 'f') || ('A' ≤ c && c ≤ 'F')

/-- Match a literal character sequence, returning the remainder. -/
def matchLit : List Char → List Char → Option (List Char)
  | [], rest => some rest
  | _, [] => none
  | l :: ls, c :: cs => if c = l then matchLit ls cs else none

/-- Scan a JSON string body after the opening quote. -/
def jsonString : List Char → Option (List Char)
  | [] => none
  | c :: rest =>
    if c = '"' then some rest
    else if c = '\\' then
      match rest with
      | [] => none
      | e :: rest2 =>
        if e = '"' || e = '\\' || e = '/' || e = 'b' || e = 'f' || e = 'n' ||
            e = 'r' || e = 't' then
          jsonString rest2
        else if e = 'u' then
          match rest2 with
          | h1 :: h2 :: h3 :: h4 :: rest3 =>
            if isHexChar h1 && isHexChar h2 && isHexChar h3 && isHexChar h4 then
              jsonString rest3
            else none
          | _ => none
        else none
    else if c.toNat < 32 then none
    else jsonString rest

/-- Split off a (possibly empty) run of decimal digits. -/
def spanDigits : List Char → List Char
  | [] => []
  | c :: rest => if isDigitChar c then spanDigits rest else c :: rest

/-- Integer part after the optional sign: `0` or a nonzero-led digit run. -/
def jsonIntTail : List Char → Option (List Char)
  | [] => none
  | c :: r =>
    if c = '0' then some r
    else if isDigitChar c then some (spanDigits r)
    else none

/-- Optional fraction part: a dot must be followed by at least one digit. -/
def jsonFracTail : List Char → Option (List Char)
  | '.' :: r =>
    match r with
    | c :: r2 => if isDigitChar c then some (spanDigits r2) else none
    | [] => none
  | l => some l

/-- Optional exponent part. -/
def jsonExpTail (l : List Char) : Option (List Char) :=
  match l with
  | [] => some l
  | c :: r =>
    if c = 'e' || c = 'E' then
      let r2 := match r with
        | s :: r' => if s = '+' || s = '-' then r' else r
        | [] => r
      match r2 with
      | d :: r3 => if isDigitChar d then some (spanDigits r3) else none
      | [] => none
    else some l

/-- Scan one JSON number. -/
def jsonNumber (l : List Char) : Option (List Char) :=
  let l1 := match l with
    | '-' :: r => r
    | _ => l
  match jsonIntTail l1 with
  | none => none
  | some r =>
    match jsonFracTail r with
    | none => none
    | some r2 => jsonExpTail r2

/-- Opening curly bracket (written by code point to keep it out of literals). -/
def braceOpen : Char := Char.ofNat 123

/-- Closing curly bracket. -/
def braceClose : Char := Char.ofNat 125

/-- Parser modes: a full value, the tail of an array after one element, one
object member, the tail of an object after one member. -/
inductive JsonMode where
  | value
  | arrayRest
  | member
  | objectRest

/-- Fueled recursive-descent JSON scanner; each recursive call consumes one
unit of fuel, and `isValidJson` supplies more fuel than any input can use. -/
def jsonRun : Nat → JsonMode → List Char → Option (List Char)
  | 0, _, _ => none
  | Nat.succ fuel, JsonMode.value, input =>
    match skipWs input with
    | [] => none
    | c :: rest =>
      if c = '"' then jsonString rest
      else if c = '[' then
        match skipWs rest with
        | ']' :: r => some r
        | r =>
          match jsonRun fuel JsonMode.value r with
          | some r2 => jsonRun fuel JsonMode.arrayRest r2
          | none => none
      else if c = braceOpen then
        match skipWs rest with
        | [] => none
        | d :: r =>
          if d = braceClose then some r
          else
            match jsonRun fuel JsonMode.member (d :: r) with
            | some r2 => jsonRun fuel JsonMode.objectRest r2
            | none => none
      else if c = 't' then matchLit "true".data (c :: rest)
      else if c = 'f' then matchLit "false".data (c :: rest)
      else if c = 'n' then matchLit "null".data (c :: rest)
      else if c = 'N' then matchLit "NaN".data (c :: rest)
      else if c = 'I' then matchLit "Infinity".data (c :: rest)
      else if c = '-' then
        match rest with
        | 'I' :: _ => matchLit "-Infinity".data (c :: rest)
        | _ => jsonNumber (c :: rest)
      else if isDigitChar c then jsonNumber (c :: rest)
      else none
  | Nat.succ fuel, JsonMode.arrayRest, input =>
    match skipWs input with
    | ',' :: r =>
      match jsonRun fuel JsonMode.value r with
      | some r2 => jsonRun fuel JsonMode.arrayRest r2
      | none => none
    | ']' :: r => some r
    | _ => none
  | Nat.succ fuel, JsonMode.member, input =>
    match skipWs input with
    | '"' :: rest =>
      match jsonString rest with
      | some r =>
        match skipWs r with
        | ':' :: r2 => jsonRun fuel JsonMode.value r2
        | _ => none
      | none => none
    | _ => none
  | Nat.succ fuel, JsonMode.objectRest, input =>
    match skipWs input with
    | ',' :: r =>
      match jsonRun fuel JsonMode.member r with
      | some r2 => jsonRun fuel JsonMode.objectRest r2
      | none => none
    | c :: r => if c = braceClose then some r else none
    | _ => none

/-- Whether `json.loads(s)` succeeds: one JSON value, then only whitespace. -/
def isValidJson (s : String) : Bool :=
  match jsonRun (2 * s.length + 2) JsonMode.value s.data with
  | some rest => (skipWs rest).isEmpty
  | none => false

/-! ## Bulk downloader (`download_and_cache` in download_gplates_cache.py
lines 99–116, identical in download_gplates_full.py lines 36–53) -/

/-- The persistent cache directory, as a map from file name to contents. -/
structure DiskState where
  files : String → Option String

/-- `download_and_cache(url)`: skip when the cache file exists; otherwise
fetch (`urlopen` modelled by the oracle, `none` = raised exception), validate
with `json.loads`, and only then write the cache file.  A json.loads failure
is caught by the same `except` as a network failure, producing a failure
triple without touching the cache.  Returns the new disk state and the
`(url, success, message)` triple (the exception text is collapsed to
`"error"`). -/
def download_and_cache (urlopen : String → Option String) (disk : DiskState)
    (url : String) : DiskState × (String × Bool × String) :=
  match disk.files (get_cache_path url) with
  | some _ => (disk, (url, true, "cached"))
  | none =>
    match urlopen url with
    | none => (disk, (url, false, "error"))
    | some data =>
      if isValidJson data then
        (⟨updateFn disk.files (get_cache_path url) data⟩, (url, true, "downloaded"))
      else (disk, (url, false, "error"))

/-! ## Boundary geometry (`splitAtDateLine` simulator.py lines 3863–3892,
`isPointInPolygon` lines 2442–2458, `point_in_polygon` test_sync.py
lines 85–103)

Coordinates are exact rationals standing for the JS/Python floats. -/

/-- One `(lat, lon)` vertex as the JS code stores it (`coord.lat`, `coord.lon`). -/
structure Coord where
  lat : ℚ
  lon : ℚ
deriving DecidableEq

/-- Helper for `splitAtDateLine`: scan the remaining vertices with `prev` the
last vertex already placed in the current segment; return the rest of the
current segment and the list of later segments.  A vertex whose longitude
differs from `prev`'s by more than 180 closes the current segment and starts
a new one (the imperative loop's `currentSegment` push / reset). -/
def splitRun (prev : Coord) : List Coord → List Coord × List (List Coord)
  | [] => ([], [])
  | c :: rest =>
    if |c.lon - prev.lon| > 180 then
      ([], let r := splitRun c rest; (c :: r.1) :: r.2)
    else
      let r := splitRun c rest
      (c :: r.1, r.2)

/-- `splitAtDateLine(coordinates)`: split a vertex list into segments at every
consecutive longitude difference exceeding 180 degrees.  The empty input
produces no segments (the loop never runs and the final
`if currentSegment.length > 0` push is skipped). -/
def splitAtDateLine : List Coord → List (List Coord)
  | [] => []
  | c :: rest =>
    let r := splitRun c rest
    (c :: r.1) :: r.2

/-- `isPointInPolygon(lat, lon, polygon)` (JS, simulator.py): standard
even-odd ray casting; iteration `i` pairs vertex `i` with vertex
`j = i - 1` (`n - 1` for `i = 0`). -/
def isPointInPolygon (lat lon : ℚ) (polygon : List Coord) : Bool :=
  let n := polygon.length
  (List.range n).foldl
    (fun inside i =>
      let vi := polygon.getD i ⟨0, 0⟩
      let vj := polygon.getD (if i = 0 then n - 1 else i - 1) ⟨0, 0⟩
      if (decide (vi.lat > lat) != decide (vj.lat > lat)) &&
          decide (lon < (vj.lon - vi.lon) * (lat - vi.lat) / (vj.lat - vi.lat) + vi.lon)
      then !inside else inside)
    false

/-- One iteration of the Python `point_in_polygon` loop. The state carries
`inside`, the last value assigned to `xinters` (Python keeps it across
iterations; `none` while still unassigned), and the current `p1`.  A `none`
result models the `NameError` raised if `x <= xinters` is evaluated before
any assignment to `xinters`. -/
def pipStep (x y : ℚ) (st : Option (Bool × Option ℚ × ℚ × ℚ))
    (p2 : ℚ × ℚ) : Option (Bool × Option ℚ × ℚ × ℚ) :=
  match st with
  | none => none
  | some (inside, xinters, p1x, p1y) =>
    if y > min p1y p2.2 ∧ y ≤ max p1y p2.2 ∧ x ≤ max p1x p2.1 then
      let xinters' := if p1y ≠ p2.2 then
          some ((y - p1y) * (p2.1 - p1x) / (p2.2 - p1y) + p1x)
        else xinters
      if p1x = p2.1 then some (!inside, xinters', p2.1, p2.2)
      else
        match xinters' with
        | none => none
        | some xv =>
          if x ≤ xv then some (!inside, xinters', p2.1, p2.2)
          else some (inside, xinters', p2.1, p2.2)
    else some (inside, xinters, p2.1, p2.2)

/-- `point_in_polygon(point_lon, point_lat, polygon)` (Python, test_sync.py):
ray casting over edges `polygon[i-1] → polygon[i % n]` for `i = 1..n`;
`none` models an exception (empty polygon, or uninitialized `xinters`). -/
def point_in_polygon (x y : ℚ) (polygon : List (ℚ × ℚ)) : Option Bool :=
  match polygon with
  | [] => none
  | p0 :: _ =>
    let edges := (List.range polygon.length).map
      (fun i => polygon.getD ((i + 1) % polygon.length) (0, 0))
    match edges.foldl (pipStep x y) (some (false, none, p0.1, p0.2)) with
    | some (inside, _, _, _) => some inside
    | none => none

/-! ## Trajectory validation (`filterInvalidTrajectoryPoints`,
simulator.py lines 4496–4532) -/

/-- One trajectory point; `isEndPoint` models the JS `pt.isEndPoint` flag
(absent = falsy = `false`). -/
structure TrajPoint where
  age : ℚ
  lat : ℚ
  lon : ℚ
  isEndPoint : Bool := false
deriving DecidableEq

/-- The out-of-bounds check of the filter (boundary values are kept). -/
def outOfRange (p : TrajPoint) : Bool :=
  decide (p.lat < -90) || decide (p.lat > 90) ||
    decide (p.lon < -180) || decide (p.lon > 180)

/-- The large-jump check against the last valid point: either coordinate
difference exceeds `maxJumpPerMa (= 3) * ageDiff`. -/
def bigJump (last p : TrajPoint) : Bool :=
  decide (|p.lat - last.lat| > 3 * (p.age - last.age)) ||
    decide (|p.lon - last.lon| > 3 * (p.age - last.age))

/-- Set the `isEndPoint` flag (`pt.isEndPoint = true`). -/
def markEnd (p : TrajPoint) : TrajPoint := { p with isEndPoint := true }

/-- The filter loop from index 1 on: `last` is `lastValidPoint`.  Out-of-range
points are dropped without updating `last`; kept points (flagged when they
jump) become the new `last`. -/
def filterAux (last : TrajPoint) : List TrajPoint → List TrajPoint
  | [] => []
  | p :: rest =>
    if outOfRange p then filterAux last rest
    else
      let p' := if bigJump last p then markEnd p else p
      p' :: filterAux p' rest

/-- `filterInvalidTrajectoryPoints()`: lists shorter than 2 are returned
unchanged; otherwise the first point is kept unconditionally and the rest
are walked by `filterAux`. -/
def filterInvalidTrajectoryPoints (ts : List TrajPoint) : List TrajPoint :=
  match ts with
  | [] => ts
  | [p] => [p]
  | p0 :: rest => p0 :: filterAux p0 rest

/-! ## Anchor resolution (`findAnchorPoint`, simulator.py lines 4539–4632)

The reconstruction service is the oracle
`fetchPoint lon lat time : Option (ℚ × ℚ)` returning the first
`coordinates` entry `[lon, lat]` of the JSON response (`none` collapses a
non-ok response, a fetch exception and a missing/empty `coordinates` array,
which the source treats identically).  The JS `Math.cos(angle*π/180)` and
`Math.sin(angle*π/180)` are abstracted by oracles `cosd`/`sind` (the claims
hold for every value of these).  Displacements are compared through their
squares: `Math.sqrt(s) > t` iff `s > t²` for `t ≥ 0`, so dropping the
square root is observation-preserving, and the tracked `bestMovement` is
represented by the squared value `movSq`. -/

/-- The anchor result `{anchorLat, anchorLon, offsetLat, offsetLon}`. -/
structure Anchor where
  anchorLat : ℚ
  anchorLon : ℚ
  offsetLat : ℚ
  offsetLon : ℚ
deriving DecidableEq

/-- A successful probe: its (clamped) position, squared displacement, radius. -/
structure AnchorProbe where
  lat : ℚ
  lon : ℚ
  movSq : ℚ
  dist : ℚ
deriving DecidableEq

/-- `searchDistances` of the source. -/
def searchDistances : List ℚ := [1, 2, 3, 5, 8, 10, 15, 20]

/-- `searchAngles` of the source (8 directions, degrees). -/
def searchAngles : List ℚ := [0, 45, 90, 135, 180, 225, 270, 315]

/-- `Math.max(-85, Math.min(85, x))`. -/
def clampLat (x : ℚ) : ℚ := max (-85) (min 85 x)

/-- One probe of the radial search: reconstruct the offset point at the
test age 50 and record its squared displacement; `none` when the fetch
fails or yields no coordinates. -/
def probeAt (cosd sind : ℚ → ℚ) (fetchPoint : ℚ → ℚ → ℚ → Option (ℚ × ℚ))
    (lat lon dist angle : ℚ) : Option AnchorProbe :=
  let testLat := clampLat (lat + dist * cosd angle)
  let testLon := lon + dist * sind angle
  match fetchPoint testLon testLat 50 with
  | some r =>
    some ⟨testLat, testLon, (r.2 - testLat) ^ 2 + (r.1 - testLon) ^ 2, dist⟩
  | none => none

/-- The `bestAnchor` / `bestMovement` update applied to each probe result:
`if (r && r.movement > 0.5 && r.movement > bestMovement)` (squared form:
0.5² = 1/4). -/
def updateBest (best : Option AnchorProbe × ℚ) (r : Option AnchorProbe) :
    Option AnchorProbe × ℚ :=
  match r with
  | some p => if p.movSq > 1/4 ∧ p.movSq > best.2 then (some p, p.movSq) else best
  | none => best

/-- The outer radius loop: probe the 8 directions at each radius, update the
best, and break out of the remaining radii once
`bestAnchor && bestMovement > 2` (squared: 4). -/
def searchLoop (cosd sind : ℚ → ℚ) (fetchPoint : ℚ → ℚ → ℚ → Option (ℚ × ℚ))
    (lat lon : ℚ) : List ℚ → Option AnchorProbe × ℚ → Option AnchorProbe × ℚ
  | [], best => best
  | dist :: rest, best =>
    let best' := (searchAngles.map (probeAt cosd sind fetchPoint lat lon dist)).foldl
      updateBest best
    if best'.1.isSome ∧ best'.2 > 4 then best'
    else searchLoop cosd sind fetchPoint lat lon rest best'

/-- The initial on-a-plate test: the original point, reconstructed at age 50,
moved by more than 0.5 degrees (squared: 1/4).  A failed or empty response
falls through to the search, exactly as the source's try/catch does. -/
def initialMoved (fetchPoint : ℚ → ℚ → ℚ → Option (ℚ × ℚ)) (lat lon : ℚ) : Bool :=
  match fetchPoint lon lat 50 with
  | some r => decide ((r.2 - lat) ^ 2 + (r.1 - lon) ^ 2 > 1/4)
  | none => false

/-- `findAnchorPoint(lat, lon, modelName)`. -/
def findAnchorPoint (cosd sind : ℚ → ℚ)
    (fetchPoint : ℚ → ℚ → ℚ → Option (ℚ × ℚ)) (lat lon : ℚ) : Option Anchor :=
  if initialMoved fetchPoint lat lon then none
  else
    match (searchLoop cosd sind fetchPoint lat lon searchDistances (none, 0)).1 with
    | some p => some ⟨p.lat, p.lon, lat - p.lat, lon - p.lon⟩
    | none => none

/-- The squared `bestMovement` value the source loop keeps alongside
`bestAnchor` (0 before any qualifying probe). -/
def movOf : Option AnchorProbe → ℚ
  | none => 0
  | some p => p.movSq

/-- Spec-side selection: the probe with the largest displacement seen so far
(a strictly larger displacement replaces, so earlier probes win ties),
folded over a list of qualifying probes starting from `b`. -/
def selFold (b : Option AnchorProbe) (l : List AnchorProbe) : Option AnchorProbe :=
  l.foldl
    (fun acc p =>
      match acc with
      | none => some p
      | some q => if p.movSq > q.movSq then some p else some q)
    b

/-- Spec-side qualification: drop failed probes and those at or below the
0.5-degree displacement threshold. -/
def qualifying (l : List (Option AnchorProbe)) : List AnchorProbe :=
  (l.filterMap id).filter (fun p => decide (p.movSq > 1/4))

/-- Modelled from the spec wording of the search (claim C4): accumulate the
qualifying probes radius by radius, keep the one with the largest
displacement, and stop searching further radii as soon as the best
displacement exceeds 2 degrees (squared: 4). -/
def specSearch (cosd sind : ℚ → ℚ) (fetchPoint : ℚ → ℚ → ℚ → Option (ℚ × ℚ))
    (lat lon : ℚ) : List AnchorProbe → List ℚ → Option AnchorProbe
  | acc, [] => selFold none acc
  | acc, dist :: rest =>
    let acc' := acc ++
      qualifying (searchAngles.map (probeAt cosd sind fetchPoint lat lon dist))
    match selFold none acc' with
    | some p =>
      if p.movSq > 4 then some p
      else specSearch cosd sind fetchPoint lat lon acc' rest
    | none => specSearch cosd sind fetchPoint lat lon acc' rest

/-- Modelled from the spec wording of claim C4: the whole anchor search as
the claim states it — initial moved-test, radius-by-radius best tracking
with early stop, offset = original − anchor. -/
def findAnchorPointSpec (cosd sind : ℚ → ℚ)
    (fetchPoint : ℚ → ℚ → ℚ → Option (ℚ × ℚ)) (lat lon : ℚ) : Option Anchor :=
  if initialMoved fetchPoint lat lon then none
  else
    match specSearch cosd sind fetchPoint lat lon [] searchDistances with
    | some p => some ⟨p.lat, p.lon, lat - p.lat, lon - p.lon⟩
    | none => none

/-! ## Trajectory assembly (`generateFullTrajectoryAsync`,
simulator.py lines 4635–4711) -/

/-- The step-size choice of the source (`let step = 20; if maxAge < 20
step = 5; else if maxAge < 100 step = 10`). -/
def stepFor (maxAge : ℚ) : ℚ :=
  if maxAge < 20 then 5 else if maxAge < 100 then 10 else 20

/-- Number of iterations of `for (let age = step; age <= maxAge; age += step)`:
the largest `k` with `k * step ≤ maxAge`, i.e. `⌊maxAge / step⌋` (0 for a
negative quotient), computed on the reduced fraction. -/
def stepCount (step maxAge : ℚ) : Nat :=
  (maxAge / step).num.toNat / (maxAge / step).den

/-- The age sequence `[step, 2*step, ...]` the loop builds. -/
def agesList (maxAge : ℚ) : List ℚ :=
  (List.range (stepCount (stepFor maxAge) maxAge)).map
    (fun i : ℕ => stepFor maxAge * ((i : ℚ) + 1))

/-- The latitude queried for every age: the anchor's when one was found,
otherwise the original input latitude. -/
def reconLatOf (anchor : Option Anchor) (lat : ℚ) : ℚ :=
  match anchor with
  | some a => a.anchorLat
  | none => lat

/-- The longitude queried for every age. -/
def reconLonOf (anchor : Option Anchor) (lon : ℚ) : ℚ :=
  match anchor with
  | some a => a.anchorLon
  | none => lon

/-- The per-age fetch of the trajectory builder: on coordinates, add the
anchor offset when an anchor exists; on a failed fetch or a missing
`coordinates` array, fall back to the original input coordinates. -/
def trajPointFor (fetchPoint : ℚ → ℚ → ℚ → Option (ℚ × ℚ))
    (lat lon reconLat reconLon : ℚ) (anchor : Option Anchor) (age : ℚ) :
    TrajPoint :=
  match fetchPoint reconLon reconLat age with
  | some r =>
    match anchor with
    | some a => ⟨age, r.2 + a.offsetLat, r.1 + a.offsetLon, false⟩
    | none => ⟨age, r.2, r.1, false⟩
  | none => ⟨age, lat, lon, false⟩

/-- `generateFullTrajectoryAsync(lat, lon, maxAge)`: resolve the anchor,
push the literal input point at age 0, fetch every other age through the
anchor coordinates (concurrently in the source; the gathered results are a
list here), sort the results by age (`results.sort((a, b) => a.age - b.age)`)
and append them. -/
def generateFullTrajectoryAsync (cosd sind : ℚ → ℚ)
    (fetchPoint : ℚ → ℚ → ℚ → Option (ℚ × ℚ)) (lat lon maxAge : ℚ) :
    List TrajPoint :=
  ⟨0, lat, lon, false⟩ ::
    ((agesList maxAge).map
      (trajPointFor fetchPoint lat lon
        (reconLatOf (findAnchorPoint cosd sind fetchPoint lat lon) lat)
        (reconLonOf (findAnchorPoint cosd sind fetchPoint lat lon) lon)
        (findAnchorPoint cosd sind fetchPoint lat lon))).mergeSort
      (fun a b => decide (a.age ≤ b.age))

/-! ## Theorems -/

/-- Claim C1: after a first `do_GET` resolve of a URL that succeeds, a second
resolve of the same URL returns a byte-identical payload, performs zero
network operations, and leaves the cache state unchanged; and when the URL
was cached in neither tier, the first success wrote the payload through to
both the memory tier and the disk cache. -/
theorem resolve_idempotent_second_hit_no_network
    (origin : String → Option String) (st : ProxyState) (url d : String)
    (st2 : ProxyState) (n : Nat)
    (h : doGET origin st url = (.ok d, st2, n)) :
    doGET origin st2 url = (.ok d, st2, 0) ∧
    (st.mem url = none → st.disk url = none →
      st2.mem url = some d ∧ st2.disk url = some d) := by
  unfold doGET at h
  split at h
  next v hm =>
    simp only [Prod.mk.injEq, ProxyResponse.ok.injEq] at h
    obtain ⟨hd, hst, -⟩ := h
    subst hd; subst hst
    refine ⟨by unfold doGET; rw [hm], fun hmem _ => ?_⟩
    rw [hm] at hmem; simp at hmem
  next hm =>
    split at h
    next v hk =>
      split at h
      next hv =>
        simp only [Prod.mk.injEq, ProxyResponse.ok.injEq] at h
        obtain ⟨hd, hst, -⟩ := h
        subst hd; subst hst
        refine ⟨?_, fun _ hdk => ?_⟩
        · unfold doGET
          have hm2 : (ProxyState.mk (updateFn st.mem url v) st.disk).mem url
              = some v := by simp [updateFn]
          rw [hm2]
        · rw [hk] at hdk; simp at hdk
      next hv =>
        split at h
        next data ho =>
          simp only [Prod.mk.injEq, ProxyResponse.ok.injEq] at h
          obtain ⟨hd, hst, -⟩ := h
          subst hd; subst hst
          refine ⟨?_, fun _ hdk => ?_⟩
          · unfold doGET
            have hm2 : (ProxyState.mk (updateFn st.mem url data)
                (updateFn st.disk url data)).mem url = some data := by
              simp [updateFn]
            rw [hm2]
          · rw [hk] at hdk; simp at hdk
        next ho => simp at h
    next hk =>
      split at h
      next data ho =>
        simp only [Prod.mk.injEq, ProxyResponse.ok.injEq] at h
        obtain ⟨hd, hst, -⟩ := h
        subst hd; subst hst
        refine ⟨?_, fun _ _ => ⟨?_, ?_⟩⟩
        · unfold doGET
          have hm2 : (ProxyState.mk (updateFn st.mem url data)
              (updateFn st.disk url data)).mem url = some data := by
            simp [updateFn]
          rw [hm2]
        · simp [updateFn]
        · simp [updateFn]
      next ho => simp at h

/-- Witness for C1: a first fetch of URL "u" against an empty cache and an
origin that returns "[1]" succeeds and writes through; the second resolve is
a memory hit with the identical payload and no network operation. -/
theorem resolve_idempotent_second_hit_no_network_witness :
    doGET (fun _ => some "[1]")
        ⟨updateFn (fun _ => none) "u" "[1]", updateFn (fun _ => none) "u" "[1]"⟩ "u"
      = (.ok "[1]",
        ⟨updateFn (fun _ => none) "u" "[1]", updateFn (fun _ => none) "u" "[1]"⟩, 0) ∧
    ((fun _ : String => (none : Option String)) "u" = none →
      (fun _ : String => (none : Option String)) "u" = none →
      (ProxyState.mk (updateFn (fun _ => none) "u" "[1]")
          (updateFn (fun _ => none) "u" "[1]")).mem "u" = some "[1]" ∧
      (ProxyState.mk (updateFn (fun _ => none) "u" "[1]")
          (updateFn (fun _ => none) "u" "[1]")).disk "u" = some "[1]") :=
  resolve_idempotent_second_hit_no_network (fun _ => some "[1]")
    ⟨fun _ => none, fun _ => none⟩ "u" "[1]" _ 1 rfl

set_option maxRecDepth 100000 in
/-- Claim C2 counterexample: queries that differ only in the formatting of the
age parameter are NOT normalized before hashing — the request URL with
`time=50` and the one with `time=50.0` map to different cache files. -/
theorem cache_key_formatting_not_normalized :
    get_cache_path "https://gws.gplates.org/reconstruct/reconstruct_points/?points=-43.2,-22.9&time=50&model=MULLER2022" ≠
      get_cache_path "https://gws.gplates.org/reconstruct/reconstruct_points/?points=-43.2,-22.9&time=50.0&model=MULLER2022" := by
  decide

set_option maxRecDepth 100000 in
/-- Claim C2 amended: the derived cache key is a pure function of the exact
request URL string, so two queries with the identical canonical request
string share a cache location; but no canonicalization of parameter
formatting is performed before hashing — age `50` and age `50.0` yield
different storage locations. -/
theorem cache_key_exact_string_only :
    (∀ u v : String, u = v → get_cache_path u = get_cache_path v) ∧
    get_cache_path "https://gws.gplates.org/reconstruct/reconstruct_points/?points=-43.2,-22.9&time=50&model=MULLER2022" ≠
      get_cache_path "https://gws.gplates.org/reconstruct/reconstruct_points/?points=-43.2,-22.9&time=50.0&model=MULLER2022" :=
  ⟨fun _ _ h => h ▸ rfl, by decide⟩

/-- Witness for the amended C2: the universally quantified half applied at a
concrete URL, its equality hypothesis discharged by `rfl`. -/
theorem cache_key_exact_string_only_witness :
    get_cache_path "https://gws.gplates.org/reconstruct/coastlines/?time=0&model=SETON2012"
      = get_cache_path "https://gws.gplates.org/reconstruct/coastlines/?time=0&model=SETON2012" :=
  cache_key_exact_string_only.1 _ _ rfl

/-- Claim C3 counterexample: not every persisting code path validates JSON —
the proxy's `do_GET`, on a cache miss, writes the fetched bytes to the disk
cache even when they do not parse as JSON ("not json" here), so a malformed
fetch does change the cache directory. -/
theorem proxy_caches_invalid_payload :
    isValidJson "not json" = false ∧
    ((doGET (fun _ => some "not json") ⟨fun _ => none, fun _ => none⟩ "u").2.1).disk "u"
      = some "not json" := by
  constructor <;> decide

/-- Claim C3 amended: the bulk downloaders' `download_and_cache` does validate
the payload as JSON before writing — every cache file it leaves behind is
either the old content or a payload that parses as JSON — while the proxy's
`do_GET` persists fetched payloads with no JSON validation (see the
counterexample). -/
theorem download_and_cache_writes_only_valid_json
    (urlopen : String → Option String) (disk : DiskState) (url k : String) :
    (download_and_cache urlopen disk url).1.files k = disk.files k ∨
    ∃ data, urlopen url = some data ∧ isValidJson data = true ∧
      (download_and_cache urlopen disk url).1.files k = some data := by
  unfold download_and_cache
  cases hc : disk.files (get_cache_path url) with
  | some v => exact Or.inl rfl
  | none =>
    cases ho : urlopen url with
    | none => exact Or.inl rfl
    | some data =>
      dsimp only
      by_cases hv : isValidJson data
      · rw [if_pos hv]
        by_cases hk : k = get_cache_path url
        · exact Or.inr ⟨data, rfl, hv, by simp [updateFn, hk]⟩
        · exact Or.inl (by simp [updateFn, hk])
      · rw [if_neg hv]
        exact Or.inl rfl

/-- Helper: `splitRun` reassembles to its input list. -/
theorem splitRun_join (l : List Coord) :
    ∀ prev, (splitRun prev l).1 ++ ((splitRun prev l).2).flatten = l := by
  induction l with
  | nil => intro prev; rfl
  | cons c rest ih =>
    intro prev
    by_cases hd : |c.lon - prev.lon| > 180
    · simp only [splitRun, if_pos hd, List.flatten_cons, List.nil_append,
        List.cons_append]
      rw [ih c]
    · simp only [splitRun, if_neg hd, List.cons_append]
      rw [ih c]

/-- Claim C10: concatenating the sub-rings returned by `splitAtDateLine`, in
order, gives back exactly the input vertex list (no vertex is dropped,
duplicated or reordered), and the empty input yields no segments. -/
theorem splitAtDateLine_partitions :
    (∀ coordinates : List Coord,
      (splitAtDateLine coordinates).flatten = coordinates) ∧
    splitAtDateLine [] = [] := by
  refine ⟨fun coords => ?_, rfl⟩
  cases coords with
  | nil => rfl
  | cons c rest =>
    simp only [splitAtDateLine, List.flatten_cons, List.cons_append]
    rw [splitRun_join rest c]

/-- Helper: every vertex kept in the current segment, and every vertex of
every later segment, stays within 180 degrees of longitude of its
predecessor. -/
theorem splitRun_chain (l : List Coord) :
    ∀ prev, List.Chain (fun p q => |q.lon - p.lon| ≤ 180) prev (splitRun prev l).1 ∧
      ∀ s ∈ (splitRun prev l).2,
        List.Chain' (fun p q => |q.lon - p.lon| ≤ 180) s := by
  induction l with
  | nil => intro prev; exact ⟨List.Chain.nil, by simp [splitRun]⟩
  | cons c rest ih =>
    intro prev
    by_cases hd : |c.lon - prev.lon| > 180
    · refine ⟨?_, ?_⟩
      · simp only [splitRun, if_pos hd]
        exact List.Chain.nil
      · simp only [splitRun, if_pos hd]
        intro s hs
        rcases List.mem_cons.mp hs with hs1 | hs2
        · rw [hs1]
          exact (ih c).1
        · exact (ih c).2 s hs2
    · refine ⟨?_, ?_⟩
      · simp only [splitRun, if_neg hd]
        exact List.Chain.cons (not_lt.mp hd) (ih c).1
      · simp only [splitRun, if_neg hd]
        exact (ih c).2

/-- Helper: if the scan produced no later segment, the whole remainder forms
one chain with no longitude difference above 180. -/
theorem splitRun_no_split (l : List Coord) :
    ∀ prev, (splitRun prev l).2 = [] →
      List.Chain (fun p q => |q.lon - p.lon| ≤ 180) prev l := by
  induction l with
  | nil => intro prev _; exact List.Chain.nil
  | cons c rest ih =>
    intro prev h
    by_cases hd : |c.lon - prev.lon| > 180
    · simp only [splitRun, if_pos hd] at h
      exact absurd h (List.cons_ne_nil _ _)
    · simp only [splitRun, if_neg hd] at h
      exact List.Chain.cons (not_lt.mp hd) (ih c h)

/-- Helper: a chain over an append exposes the relation on any adjacent pair. -/
theorem chain'_middle {α : Type} {R : α → α → Prop} :
    ∀ (pre : List α) (p q : α) (rest : List α),
      List.Chain' R (pre ++ p :: q :: rest) → R p q := by
  intro pre
  induction pre with
  | nil => intro p q rest h; exact (List.chain'_cons.mp h).1
  | cons a pre ih => intro p q rest h; exact ih p q rest h.tail

/-- Claim C8: a ring with consecutive vertices at longitudes 179 and −179 is
split by `splitAtDateLine` into at least two sub-rings, and within every
returned sub-ring no two consecutive vertices differ by more than 180
degrees of longitude. -/
theorem splitAtDateLine_antimeridian (coordinates : List Coord)
    (h : ∃ pre p q rest, coordinates = pre ++ p :: q :: rest ∧
      p.lon = 179 ∧ q.lon = -179) :
    2 ≤ (splitAtDateLine coordinates).length ∧
    ∀ s ∈ splitAtDateLine coordinates,
      List.Chain' (fun p q => |q.lon - p.lon| ≤ 180) s := by
  obtain ⟨pre, p, q, rest, hco, hp, hq⟩ := h
  cases hcc : coordinates with
  | nil =>
    rw [hcc] at hco
    exact absurd hco.symm (by simp)
  | cons c tail =>
    refine ⟨?_, ?_⟩
    · simp only [splitAtDateLine, List.length_cons]
      rcases hsp : (splitRun c tail).2 with _ | ⟨s, segs⟩
      · exfalso
        have hch : List.Chain' (fun a b => |b.lon - a.lon| ≤ 180) (c :: tail) :=
          splitRun_no_split tail c hsp
        rw [← hcc, hco] at hch
        have hpq := chain'_middle pre p q rest hch
        rw [hp, hq] at hpq
        norm_num at hpq
      · simp
    · intro s hs
      simp only [splitAtDateLine] at hs
      rcases List.mem_cons.mp hs with hs1 | hs2
      · rw [hs1]
        exact (splitRun_chain tail c).1
      · exact (splitRun_chain tail c).2 s hs2

/-- Witness for C8: the two-vertex ring crossing the antimeridian at
longitudes 179 and −179. -/
theorem splitAtDateLine_antimeridian_witness :
    2 ≤ (splitAtDateLine [⟨0, 179⟩, ⟨0, -179⟩]).length ∧
    ∀ s ∈ splitAtDateLine [⟨0, 179⟩, ⟨0, -179⟩],
      List.Chain' (fun p q => |q.lon - p.lon| ≤ 180) s :=
  splitAtDateLine_antimeridian _ ⟨[], ⟨0, 179⟩, ⟨0, -179⟩, [], rfl, rfl, rfl⟩

/-- Claim C9: the even-odd ray-casting containment test on the ring
[(0,0),(10,0),(10,10),(0,10)] (vertices read as (lon, lat)): point (5,5) is
reported inside and point (15,15) outside — both by the simulator's JS
`isPointInPolygon` and by the diagnostic's Python `point_in_polygon`. -/
theorem point_in_polygon_concrete :
    isPointInPolygon 5 5 [⟨0, 0⟩, ⟨0, 10⟩, ⟨10, 10⟩, ⟨10, 0⟩] = true ∧
    isPointInPolygon 15 15 [⟨0, 0⟩, ⟨0, 10⟩, ⟨10, 10⟩, ⟨10, 0⟩] = false ∧
    point_in_polygon 5 5 [(0, 0), (10, 0), (10, 10), (0, 10)] = some true ∧
    point_in_polygon 15 15 [(0, 0), (10, 0), (10, 10), (0, 10)] = some false := by
  refine ⟨?_, ?_, ?_, ?_⟩ <;> with_unfolding_all decide

/-- Helper: the walk from a given last-valid point emits only in-range points
whose end flag records exactly the large-jump test against their predecessor
in the emitted list. -/
theorem filterAux_chain (l : List TrajPoint) :
    ∀ last, (∀ p ∈ l, p.isEndPoint = false) →
      List.Chain (fun p q => q.isEndPoint = bigJump p q ∧ outOfRange q = false)
        last (filterAux last l) := by
  induction l with
  | nil => intro last _; exact List.Chain.nil
  | cons p rest ih =>
    intro last hflag
    have hrest : ∀ x ∈ rest, x.isEndPoint = false :=
      fun x hx => hflag x (List.mem_cons_of_mem _ hx)
    by_cases hr : outOfRange p = true
    · simp only [filterAux, if_pos hr]
      exact ih last hrest
    · simp only [filterAux, if_neg hr]
      by_cases hj : bigJump last p = true
      · simp only [if_pos hj]
        refine List.Chain.cons ⟨?_, ?_⟩ (ih (markEnd p) hrest)
        · show true = bigJump last (markEnd p)
          rw [show bigJump last (markEnd p) = bigJump last p from rfl, hj]
        · show outOfRange p = false
          exact Bool.not_eq_true _ ▸ eq_false_of_ne_true hr
      · simp only [if_neg hj]
        refine List.Chain.cons ⟨?_, ?_⟩ (ih p hrest)
        · rw [hflag p (List.mem_cons_self _ _), eq_false_of_ne_true hj]
        · exact eq_false_of_ne_true hr

/-- Helper: an in-range point of the walked list is kept, at most gaining the
end flag. -/
theorem filterAux_keeps (l : List TrajPoint) :
    ∀ last q, q ∈ l → outOfRange q = false →
      q ∈ filterAux last l ∨ markEnd q ∈ filterAux last l := by
  induction l with
  | nil => intro last q hq _; simp at hq
  | cons p rest ih =>
    intro last q hq hqr
    rcases List.mem_cons.mp hq with rfl | hq2
    · have hr' : ¬ (outOfRange q = true) := by simp [hqr]
      simp only [filterAux, if_neg hr']
      by_cases hj : bigJump last q = true
      · simp only [if_pos hj]
        exact Or.inr (List.mem_cons_self _ _)
      · simp only [if_neg hj]
        exact Or.inl (List.mem_cons_self _ _)
    · by_cases hr : outOfRange p = true
      · simp only [filterAux, if_pos hr]
        exact ih last q hq2 hqr
      · simp only [filterAux, if_neg hr]
        rcases ih (if bigJump last p = true then markEnd p else p) q hq2 hqr with h1 | h1
        · exact Or.inl (List.mem_cons_of_mem _ h1)
        · exact Or.inr (List.mem_cons_of_mem _ h1)

/-- Claim C7: validation walks consecutive points in age order starting from
the always-retained, unmodified first point; every later kept point is in
range (out-of-range points are dropped entirely, in-range ones kept at most
gaining the flag); and a kept point carries `isEndPoint` exactly when its
per-axis displacement from the previous kept point exceeds the budget of
3 degrees per age unit times the elapsed age gap — the later point of the
pair is flagged, never its predecessors. -/
theorem validation_flags_discontinuities (ts : List TrajPoint)
    (h : ∀ p ∈ ts, p.isEndPoint = false) :
    (filterInvalidTrajectoryPoints ts).head? = ts.head? ∧
    List.Chain' (fun p q => q.isEndPoint = bigJump p q ∧ outOfRange q = false)
      (filterInvalidTrajectoryPoints ts) ∧
    (∀ q ∈ ts.tail, outOfRange q = false →
      q ∈ filterInvalidTrajectoryPoints ts ∨
        markEnd q ∈ filterInvalidTrajectoryPoints ts) := by
  match ts with
  | [] => exact ⟨rfl, trivial, by simp⟩
  | [p] => exact ⟨rfl, List.Chain.nil, by simp⟩
  | p0 :: p1 :: rest =>
    refine ⟨rfl, ?_, ?_⟩
    · exact filterAux_chain (p1 :: rest) p0
        (fun x hx => h x (List.mem_cons_of_mem _ hx))
    · intro q hq hqr
      rcases filterAux_keeps (p1 :: rest) p0 q hq hqr with h1 | h1
      · exact Or.inl (List.mem_cons_of_mem _ h1)
      · exact Or.inr (List.mem_cons_of_mem _ h1)

/-- Witness for C7: a two-point trajectory with a huge jump (10 degrees over
a 2-unit age gap, budget 6): the later point gets flagged. -/
theorem validation_flags_discontinuities_witness :
    (filterInvalidTrajectoryPoints [⟨0, 0, 0, false⟩, ⟨2, 10, 0, false⟩]).head?
        = ([⟨0, 0, 0, false⟩, ⟨2, 10, 0, false⟩] : List TrajPoint).head? ∧
    List.Chain' (fun p q => q.isEndPoint = bigJump p q ∧ outOfRange q = false)
      (filterInvalidTrajectoryPoints [⟨0, 0, 0, false⟩, ⟨2, 10, 0, false⟩]) ∧
    (∀ q ∈ ([⟨0, 0, 0, false⟩, ⟨2, 10, 0, false⟩] : List TrajPoint).tail,
      outOfRange q = false →
      q ∈ filterInvalidTrajectoryPoints [⟨0, 0, 0, false⟩, ⟨2, 10, 0, false⟩] ∨
        markEnd q ∈ filterInvalidTrajectoryPoints
          [⟨0, 0, 0, false⟩, ⟨2, 10, 0, false⟩]) :=
  validation_flags_discontinuities _ (by decide)

/-- Helper: the largest-so-far selection only ever returns the start
candidate or a member of the scanned list. -/
theorem selFold_mem (l : List AnchorProbe) :
    ∀ (b : Option AnchorProbe) (p : AnchorProbe),
      selFold b l = some p → b = some p ∨ p ∈ l := by
  induction l with
  | nil => intro b p h; exact Or.inl h
  | cons x xs ih =>
    intro b p h
    rcases ih _ p h with h1 | h1
    · cases b with
      | none =>
        have h2 : some x = some p := h1
        exact Or.inr (by rw [List.mem_cons]; exact Or.inl (Option.some.inj h2).symm)
      | some q =>
        have h2 : (if x.movSq > q.movSq then some x else some q) = some p := h1
        by_cases hgt : x.movSq > q.movSq
        · rw [if_pos hgt] at h2
          exact Or.inr (by rw [List.mem_cons]; exact Or.inl (Option.some.inj h2).symm)
        · rw [if_neg hgt] at h2
          exact Or.inl h2
    · exact Or.inr (List.mem_cons_of_mem _ h1)

/-- Helper: a radius fold of `updateBest` starting from a qualifying best is
the spec-side largest-selection over the qualifying probes of that radius,
with the tracked movement staying the square of the best's displacement. -/
theorem updateBest_foldl_eq (l : List (Option AnchorProbe)) :
    ∀ b : Option AnchorProbe, (∀ p, b = some p → p.movSq > 1/4) →
      l.foldl updateBest (b, movOf b) =
        (selFold b (qualifying l), movOf (selFold b (qualifying l))) := by
  induction l with
  | nil => intro b _; rfl
  | cons r rest ih =>
    intro b hb
    cases r with
    | none =>
      have hq : qualifying (none :: rest) = qualifying rest := by
        simp [qualifying]
      rw [List.foldl_cons, hq]
      exact ih b hb
    | some x =>
      by_cases hx : x.movSq > 1/4
      · have hq : qualifying (some x :: rest) = x :: qualifying rest := by
          have hx' : (4 : ℚ)⁻¹ < x.movSq := by rwa [← one_div]
          simp [qualifying, List.filter_cons, hx']
        rw [List.foldl_cons, hq]
        cases b with
        | none =>
          have hcond : x.movSq > 1/4 ∧ x.movSq > (movOf none) :=
            ⟨hx, lt_trans (by norm_num [movOf]) hx⟩
          rw [show updateBest (none, movOf none) (some x) = (some x, movOf (some x)) from by
            rw [updateBest, if_pos hcond]; rfl]
          exact ih (some x) (fun p hp => by rw [← Option.some.inj hp]; exact hx)
        | some q =>
          by_cases hgt : x.movSq > q.movSq
          · have hcond : x.movSq > 1/4 ∧ x.movSq > (movOf (some q)) := ⟨hx, hgt⟩
            rw [show updateBest (some q, movOf (some q)) (some x) = (some x, movOf (some x)) from by
              rw [updateBest, if_pos hcond]; rfl]
            rw [show selFold (some q) (x :: qualifying rest)
                = selFold (some x) (qualifying rest) from by
              rw [show selFold (some q) (x :: qualifying rest)
                  = selFold (if x.movSq > q.movSq then some x else some q) (qualifying rest) from rfl,
                if_pos hgt]]
            exact ih (some x) (fun p hp => by rw [← Option.some.inj hp]; exact hx)
          · have hcond : ¬ (x.movSq > 1/4 ∧ x.movSq > (movOf (some q))) :=
              fun hc => hgt hc.2
            rw [show updateBest (some q, movOf (some q)) (some x)
                = (some q, movOf (some q)) from by rw [updateBest, if_neg hcond]]
            rw [show selFold (some q) (x :: qualifying rest)
                = selFold (some q) (qualifying rest) from by
              rw [show selFold (some q) (x :: qualifying rest)
                  = selFold (if x.movSq > q.movSq then some x else some q) (qualifying rest) from rfl,
                if_neg hgt]]
            exact ih (some q) hb
      · have hq : qualifying (some x :: rest) = qualifying rest := by
          have hx' : ¬ ((4 : ℚ)⁻¹ < x.movSq) := by rwa [← one_div]
          simp [qualifying, List.filter_cons, hx']
        rw [List.foldl_cons, hq]
        rw [show updateBest (b, movOf b) (some x) = (b, movOf b) from by
          rw [updateBest, if_neg (fun hc => hx hc.1)]]
        exact ih b hb

/-- Helper: the source's radius loop computes exactly the spec-side search
(largest qualifying probe with the early stop at squared displacement 4),
given the running best is the selection over the qualifying probes seen. -/
theorem searchLoop_eq_specSearch (cosd sind : ℚ → ℚ)
    (fp : ℚ → ℚ → ℚ → Option (ℚ × ℚ)) (lat lon : ℚ) (dists : List ℚ) :
    ∀ acc : List AnchorProbe, (∀ p ∈ acc, p.movSq > 1/4) →
      (searchLoop cosd sind fp lat lon dists
          (selFold none acc, movOf (selFold none acc))).1 =
        specSearch cosd sind fp lat lon acc dists := by
  induction dists with
  | nil => intro acc _; rfl
  | cons dist rest ih =>
    intro acc hacc
    have hqual : ∀ p, selFold none acc = some p → p.movSq > 1/4 := by
      intro p hp
      rcases selFold_mem acc none p hp with h1 | h1
      · exact Option.noConfusion h1
      · exact hacc p h1
    have hstep := updateBest_foldl_eq
      (searchAngles.map (probeAt cosd sind fp lat lon dist)) (selFold none acc) hqual
    have happend : selFold (selFold none acc)
        (qualifying (searchAngles.map (probeAt cosd sind fp lat lon dist)))
        = selFold none
          (acc ++ qualifying (searchAngles.map (probeAt cosd sind fp lat lon dist))) := by
      rw [selFold, selFold, selFold, List.foldl_append]
    have hacc' : ∀ p ∈ acc ++
        qualifying (searchAngles.map (probeAt cosd sind fp lat lon dist)),
        p.movSq > 1/4 := by
      intro p hp
      rcases List.mem_append.mp hp with h1 | h1
      · exact hacc p h1
      · unfold qualifying at h1
        exact of_decide_eq_true (List.mem_filter.mp h1).2
    simp only [searchLoop, specSearch]
    rw [hstep, happend]
    cases hBv : selFold none
        (acc ++ qualifying (searchAngles.map (probeAt cosd sind fp lat lon dist))) with
    | none =>
      rw [if_neg (by simp)]
      have iha := ih _ hacc'
      rw [hBv] at iha
      exact iha
    | some p =>
      by_cases h4 : p.movSq > 4
      · rw [if_pos ⟨rfl, h4⟩]
        simp [h4]
      · rw [if_neg (fun hc => h4 hc.2)]
        have iha := ih _ hacc'
        rw [hBv] at iha
        simpa [h4] using iha

/-- Helper: where a best candidate of one radius fold can come from. -/
theorem updateBest_foldl_source (l : List (Option AnchorProbe)) :
    ∀ (b : Option AnchorProbe × ℚ) (p : AnchorProbe),
      (l.foldl updateBest b).1 = some p → b.1 = some p ∨ some p ∈ l := by
  induction l with
  | nil => intro b p h; exact Or.inl h
  | cons r rest ih =>
    intro b p h
    rcases ih (updateBest b r) p h with h1 | h1
    · cases r with
      | none => exact Or.inl h1
      | some x =>
        rw [updateBest] at h1
        by_cases hc : x.movSq > 1/4 ∧ x.movSq > b.2
        · rw [if_pos hc] at h1
          dsimp only at h1
          exact Or.inr (by rw [List.mem_cons]; exact Or.inl (by rw [h1]))
        · rw [if_neg hc] at h1
          exact Or.inl h1
    · exact Or.inr (List.mem_cons_of_mem _ h1)

/-- Helper: any anchor the radius loop returns is either the starting best or
one of the probes actually taken at some searched radius and direction. -/
theorem searchLoop_source (cosd sind : ℚ → ℚ)
    (fp : ℚ → ℚ → ℚ → Option (ℚ × ℚ)) (lat lon : ℚ) (dists : List ℚ) :
    ∀ (st : Option AnchorProbe × ℚ) (p : AnchorProbe),
      (searchLoop cosd sind fp lat lon dists st).1 = some p →
      st.1 = some p ∨ ∃ dist ∈ dists, ∃ angle ∈ searchAngles,
        probeAt cosd sind fp lat lon dist angle = some p := by
  induction dists with
  | nil => intro st p h; exact Or.inl h
  | cons dist rest ih =>
    intro st p h
    simp only [searchLoop] at h
    have hmap : ∀ (hm : some p ∈ searchAngles.map (probeAt cosd sind fp lat lon dist)),
        ∃ dist' ∈ dist :: rest, ∃ angle ∈ searchAngles,
          probeAt cosd sind fp lat lon dist' angle = some p := by
      intro hm
      obtain ⟨angle, hangle, hpe⟩ := List.mem_map.mp hm
      exact ⟨dist, List.mem_cons_self _ _, angle, hangle, hpe⟩
    split at h
    · rcases updateBest_foldl_source _ st p h with h1 | h1
      · exact Or.inl h1
      · exact Or.inr (hmap h1)
    · rcases ih _ p h with h1 | h1
      · rcases updateBest_foldl_source _ st p h1 with h2 | h2
        · exact Or.inl h2
        · exact Or.inr (hmap h2)
      · obtain ⟨dist', hd, angle, hangle, hpe⟩ := h1
        exact Or.inr ⟨dist', List.mem_cons_of_mem _ hd, angle, hangle, hpe⟩

/-- Helper: the clamped probe latitude stays within [-85, 85]. -/
theorem clampLat_bounds (x : ℚ) : -85 ≤ clampLat x ∧ clampLat x ≤ 85 :=
  ⟨le_max_left _ _, max_le (by norm_num) (min_le_left _ _)⟩

/-- Claim C4: `findAnchorPoint` behaves exactly as specified — it returns no
anchor when the original point's age-50 reconstruction is displaced by more
than 0.5 degrees; otherwise it scans radii 1, 2, 3, 5, 8, 10, 15, 20 with 8
evenly spaced probes each (latitudes clamped to [-85, 85]), keeps the probe
with the largest displacement exceeding 0.5 degrees, stops after the first
radius whose best exceeds 2 degrees, and returns that probe with
offset = original − anchor, or no anchor if no probe ever qualified.  Stated
as: the spec-worded algorithm equals the source function, and every returned
anchor carries offset = original − anchor with a clamped latitude. -/
theorem findAnchorPoint_meets_spec (cosd sind : ℚ → ℚ)
    (fp : ℚ → ℚ → ℚ → Option (ℚ × ℚ)) (lat lon : ℚ) :
    findAnchorPointSpec cosd sind fp lat lon = findAnchorPoint cosd sind fp lat lon ∧
    ∀ a, findAnchorPoint cosd sind fp lat lon = some a →
      a.offsetLat = lat - a.anchorLat ∧ a.offsetLon = lon - a.anchorLon ∧
      -85 ≤ a.anchorLat ∧ a.anchorLat ≤ 85 := by
  constructor
  · unfold findAnchorPointSpec findAnchorPoint
    by_cases hm : initialMoved fp lat lon = true
    · rw [if_pos hm, if_pos hm]
    · rw [if_neg hm, if_neg hm]
      have h := searchLoop_eq_specSearch cosd sind fp lat lon searchDistances []
        (fun p hp => absurd hp (List.not_mem_nil p))
      rw [show (selFold none ([] : List AnchorProbe), movOf (selFold none []))
          = ((none : Option AnchorProbe), (0 : ℚ)) from rfl] at h
      rw [h]
  · intro a ha
    unfold findAnchorPoint at ha
    by_cases hm : initialMoved fp lat lon = true
    · rw [if_pos hm] at ha
      exact absurd ha (by simp)
    · rw [if_neg hm] at ha
      cases hsl : (searchLoop cosd sind fp lat lon searchDistances (none, 0)).1 with
      | none => rw [hsl] at ha; exact absurd ha (by simp)
      | some p =>
        rw [hsl] at ha
        rw [← Option.some.inj ha]
        refine ⟨rfl, rfl, ?_, ?_⟩ <;>
        · rcases searchLoop_source cosd sind fp lat lon searchDistances
              (none, 0) p hsl with h1 | h1
          · exact absurd h1 (by simp)
          · obtain ⟨dist, -, angle, -, hpe⟩ := h1
            simp only [probeAt] at hpe
            cases hfp : fp (lon + dist * sind angle)
                (clampLat (lat + dist * cosd angle)) 50 with
            | none => rw [hfp] at hpe; exact absurd hpe (by simp)
            | some r =>
              rw [hfp] at hpe
              have hlat := congrArg AnchorProbe.lat (Option.some.inj hpe)
              dsimp only at hlat
              rw [← hlat]
              first
                | exact (clampLat_bounds _).1
                | exact (clampLat_bounds _).2

set_option maxRecDepth 10000 in
/-- Witness for C4: a concrete oracle under which the original point does not
move but every shifted probe does; the theorem's second half applied to the
anchor the search returns, its hypothesis discharged by evaluation. -/
theorem findAnchorPoint_meets_spec_witness :
    (Anchor.mk 1 1 (-1) (-1)).offsetLat = 0 - (Anchor.mk 1 1 (-1) (-1)).anchorLat ∧
    (Anchor.mk 1 1 (-1) (-1)).offsetLon = 0 - (Anchor.mk 1 1 (-1) (-1)).anchorLon ∧
    -85 ≤ (Anchor.mk 1 1 (-1) (-1)).anchorLat ∧
    (Anchor.mk 1 1 (-1) (-1)).anchorLat ≤ 85 :=
  (findAnchorPoint_meets_spec (fun _ => 1) (fun _ => 1)
      (fun lo la _ => if la = 0 ∧ lo = 0 then some (lo, la) else some (lo, la + 10))
      0 0).2
    (Anchor.mk 1 1 (-1) (-1)) (by with_unfolding_all decide)

/-- Helper: the chosen step size is positive for every maxAge. -/
theorem stepFor_pos (maxAge : ℚ) : 0 < stepFor maxAge := by
  unfold stepFor
  split
  · norm_num
  · split <;> norm_num

/-- Helper: the generated age sequence is strictly increasing. -/
theorem agesList_pairwise (maxAge : ℚ) :
    List.Pairwise (fun a b : ℚ => a < b) (agesList maxAge) := by
  unfold agesList
  rw [List.pairwise_map]
  refine (List.pairwise_lt_range _).imp ?_
  intro a b hab
  have hs := stepFor_pos maxAge
  have hc : (a : ℚ) < b := by exact_mod_cast hab
  nlinarith

/-- Helper: every generated age is positive. -/
theorem agesList_pos (maxAge : ℚ) : ∀ a ∈ agesList maxAge, 0 < a := by
  unfold agesList
  intro a ha
  obtain ⟨i, -, rfl⟩ := List.mem_map.mp ha
  have hs := stepFor_pos maxAge
  have hi : (0 : ℚ) < (i : ℚ) + 1 := by
    have hnn : (0 : ℚ) ≤ (i : ℚ) := Nat.cast_nonneg i
    linarith
  exact mul_pos hs hi

/-- Helper: every per-age result carries exactly its query age. -/
theorem trajPointFor_age (fp : ℚ → ℚ → ℚ → Option (ℚ × ℚ))
    (lat lon rlat rlon : ℚ) (anchor : Option Anchor) (age : ℚ) :
    (trajPointFor fp lat lon rlat rlon anchor age).age = age := by
  unfold trajPointFor
  cases fp rlon rlat age with
  | some r => cases anchor <;> rfl
  | none => rfl

/-- Helper: the gathered per-age results have strictly increasing ages even
before sorting (the oracle model gathers them in issue order). -/
theorem results_pairwise (fp : ℚ → ℚ → ℚ → Option (ℚ × ℚ))
    (lat lon rlat rlon : ℚ) (anchor : Option Anchor) (maxAge : ℚ) :
    List.Pairwise (fun p q : TrajPoint => p.age < q.age)
      ((agesList maxAge).map (trajPointFor fp lat lon rlat rlon anchor)) := by
  rw [List.pairwise_map]
  refine (agesList_pairwise maxAge).imp ?_
  intro a b hab
  rw [trajPointFor_age, trajPointFor_age]
  exact hab

/-- Claim C5: every trajectory built by `generateFullTrajectoryAsync` starts
with exactly `{age: 0, lat, lon}` — the unmodified input coordinates, never
reconstructed — and its ages are strictly increasing: the gathered per-age
results are explicitly sorted by age before being appended. -/
theorem trajectory_head_and_monotone (cosd sind : ℚ → ℚ)
    (fp : ℚ → ℚ → ℚ → Option (ℚ × ℚ)) (lat lon maxAge : ℚ) :
    (generateFullTrajectoryAsync cosd sind fp lat lon maxAge).head?
        = some ⟨0, lat, lon, false⟩ ∧
    List.Chain' (fun p q : TrajPoint => p.age < q.age)
      (generateFullTrajectoryAsync cosd sind fp lat lon maxAge) := by
  have hpw := results_pairwise fp lat lon
    (reconLatOf (findAnchorPoint cosd sind fp lat lon) lat)
    (reconLonOf (findAnchorPoint cosd sind fp lat lon) lon)
    (findAnchorPoint cosd sind fp lat lon) maxAge
  have hsorted : ((agesList maxAge).map (trajPointFor fp lat lon
        (reconLatOf (findAnchorPoint cosd sind fp lat lon) lat)
        (reconLonOf (findAnchorPoint cosd sind fp lat lon) lon)
        (findAnchorPoint cosd sind fp lat lon))).mergeSort
          (fun a b => decide (a.age ≤ b.age))
      = (agesList maxAge).map (trajPointFor fp lat lon
        (reconLatOf (findAnchorPoint cosd sind fp lat lon) lat)
        (reconLonOf (findAnchorPoint cosd sind fp lat lon) lon)
        (findAnchorPoint cosd sind fp lat lon)) :=
    List.mergeSort_of_sorted (hpw.imp (fun h => decide_eq_true (le_of_lt h)))
  refine ⟨rfl, ?_⟩
  unfold generateFullTrajectoryAsync
  rw [hsorted]
  refine List.chain'_cons'.mpr ⟨?_, hpw.chain'⟩
  intro y hy
  rw [List.head?_map] at hy
  obtain ⟨a, ha, rfl⟩ := Option.map_eq_some'.mp hy
  show (0 : ℚ) < (trajPointFor fp lat lon _ _ _ a).age
  rw [trajPointFor_age]
  exact agesList_pos maxAge a (List.mem_of_mem_head? (by rw [ha]; rfl))

/-- Claim C6: for every age in the step sequence, the built trajectory
contains the point described by the source's per-age rule — on a successful
fetch the returned coordinates plus the anchor's fixed offset (the offset is
added, never re-queried) when an anchor was found, the bare coordinates when
not; on a failed or empty fetch the original input coordinates — and the
batch is never aborted: the trajectory always has one point per age plus the
age-0 head. -/
theorem trajectory_age_entry (cosd sind : ℚ → ℚ)
    (fp : ℚ → ℚ → ℚ → Option (ℚ × ℚ)) (lat lon maxAge age : ℚ)
    (h : age ∈ agesList maxAge) :
    (generateFullTrajectoryAsync cosd sind fp lat lon maxAge).length
        = (agesList maxAge).length + 1 ∧
    (∀ r : ℚ × ℚ, fp (reconLonOf (findAnchorPoint cosd sind fp lat lon) lon)
          (reconLatOf (findAnchorPoint cosd sind fp lat lon) lat) age = some r →
      (findAnchorPoint cosd sind fp lat lon = none →
        (⟨age, r.2, r.1, false⟩ : TrajPoint) ∈
          generateFullTrajectoryAsync cosd sind fp lat lon maxAge) ∧
      (∀ a, findAnchorPoint cosd sind fp lat lon = some a →
        (⟨age, r.2 + a.offsetLat, r.1 + a.offsetLon, false⟩ : TrajPoint) ∈
          generateFullTrajectoryAsync cosd sind fp lat lon maxAge)) ∧
    (fp (reconLonOf (findAnchorPoint cosd sind fp lat lon) lon)
        (reconLatOf (findAnchorPoint cosd sind fp lat lon) lat) age = none →
      (⟨age, lat, lon, false⟩ : TrajPoint) ∈
        generateFullTrajectoryAsync cosd sind fp lat lon maxAge) := by
  have hmem : trajPointFor fp lat lon
      (reconLatOf (findAnchorPoint cosd sind fp lat lon) lat)
      (reconLonOf (findAnchorPoint cosd sind fp lat lon) lon)
      (findAnchorPoint cosd sind fp lat lon) age ∈
      generateFullTrajectoryAsync cosd sind fp lat lon maxAge := by
    unfold generateFullTrajectoryAsync
    refine List.mem_cons_of_mem _ ?_
    rw [List.mem_mergeSort]
    exact List.mem_map_of_mem _ h
  refine ⟨?_, ?_, ?_⟩
  · unfold generateFullTrajectoryAsync
    rw [List.length_cons, List.length_mergeSort, List.length_map]
  · intro r hr
    constructor
    · intro hnone
      have hm2 := hmem
      unfold trajPointFor at hm2
      rw [hr, hnone] at hm2
      exact hm2
    · intro a hsome
      have hm2 := hmem
      unfold trajPointFor at hm2
      rw [hr, hsome] at hm2
      exact hm2
  · intro hrn
    have hm2 := hmem
    unfold trajPointFor at hm2
    rw [hrn] at hm2
    exact hm2

set_option maxRecDepth 10000 in
/-- Witness for C6: with an oracle that always fails, the point at age 10 of
the maxAge-40 trajectory from (1, 2) falls back to the input coordinates,
and the batch still produces one point per age plus the head. -/
theorem trajectory_age_entry_witness :
    (generateFullTrajectoryAsync (fun _ => 1) (fun _ => 1)
        (fun _ _ _ => none) 1 2 40).length = (agesList 40).length + 1 ∧
    (∀ r : ℚ × ℚ, (fun _ _ _ => (none : Option (ℚ × ℚ)))
          (reconLonOf (findAnchorPoint (fun _ => 1) (fun _ => 1)
            (fun _ _ _ => none) 1 2) 2)
          (reconLatOf (findAnchorPoint (fun _ => 1) (fun _ => 1)
            (fun _ _ _ => none) 1 2) 1) 10 = some r →
      (findAnchorPoint (fun _ => 1) (fun _ => 1) (fun _ _ _ => none) 1 2 = none →
        (⟨10, r.2, r.1, false⟩ : TrajPoint) ∈
          generateFullTrajectoryAsync (fun _ => 1) (fun _ => 1)
            (fun _ _ _ => none) 1 2 40) ∧
      (∀ a, findAnchorPoint (fun _ => 1) (fun _ => 1) (fun _ _ _ => none) 1 2
          = some a →
        (⟨10, r.2 + a.offsetLat, r.1 + a.offsetLon, false⟩ : TrajPoint) ∈
          generateFullTrajectoryAsync (fun _ => 1) (fun _ => 1)
            (fun _ _ _ => none) 1 2 40)) ∧
    ((fun _ _ _ => (none : Option (ℚ × ℚ)))
        (reconLonOf (findAnchorPoint (fun _ => 1) (fun _ => 1)
          (fun _ _ _ => none) 1 2) 2)
        (reconLatOf (findAnchorPoint (fun _ => 1) (fun _ => 1)
          (fun _ _ _ => none) 1 2) 1) 10 = none →
      (⟨10, 1, 2, false⟩ : TrajPoint) ∈
        generateFullTrajectoryAsync (fun _ => 1) (fun _ => 1)
          (fun _ _ _ => none) 1 2 40) :=
  trajectory_age_entry (fun _ => 1) (fun _ => 1) (fun _ _ _ => none) 1 2 40 10
    (by with_unfolding_all decide)

end FossilJourney
